import Mathlib

/-!
Shallow embedding of the libtoken random-string library (gen.go) and proofs
of the specification claims about it.

Conventions of the embedding:
* Go bytes are `Nat` values; every byte drawn from an entropy stream is
  reduced `% 256`, and Go's `byte(n)` conversion is `n % 256`.
* The byte-fill facade and the fallback pseudo-random stream are modelled as
  a function `Nat → Nat` (the stream) together with a position: each read of
  `k` bytes returns the bytes at the next `k` positions and advances the
  position by `k`.
* Go runtime panics (division by zero, negative `strings.Repeat` count,
  nil dereference) are modelled by `Option.none` / `Except.error`.
* The primary cryptographic source `crypto/rand.Read` is an external
  collaborator; its outcome for one call is an `Except String (List Nat)`
  input (either the bytes it produced or an error).
-/

namespace Libtoken

/-- Go's `byte(n)` conversion: truncation to one byte. -/
def byteOf (n : Nat) : Nat := n % 256

/-- Reading `n` bytes from stream `s` starting at position `pos`
(each produced value is one byte). -/
def fill (s : Nat → Nat) : Nat → Nat → List Nat
  | _, 0 => []
  | pos, n + 1 => (s pos % 256) :: fill s (pos + 1) n

/-- One iteration of the selection loop of `selectNFrom` (gen.go lines
117-121): `a_ := a[i] % byte(len(alphabets)); j_ := j[i] %
byte(len(alphabets[a_])); t[i] = alphabets[a_][j_]`. A zero modulus is a Go
runtime panic, modelled as `none`. -/
def selStep (alphabets : List (List Nat)) (ai ji : Nat) : Option Nat :=
  if byteOf alphabets.length = 0 then none
  else
    let alph := alphabets.getD (ai % byteOf alphabets.length) []
    if byteOf alph.length = 0 then none
    else some (alph.getD (ji % byteOf alph.length) 0)

/-- The `for i := 0; i < N; i++` loop of `selectNFrom`, walking the
alphabet-choice bytes `a` and the symbol-choice bytes `j` in lockstep. -/
def selLoop (alphabets : List (List Nat)) : List Nat → List Nat → Option (List Nat)
  | [], _ => some []
  | _ :: _, [] => some []
  | ai :: as, ji :: js =>
    match selStep alphabets ai ji with
    | none => none
    | some x =>
      match selLoop alphabets as js with
      | none => none
      | some xs => some (x :: xs)

/-- `selectNFrom` (gen.go lines 105-124): for `N < 0` return the empty
slice; otherwise draw `N` bytes for alphabet choice, then `N` bytes for
symbol choice, from the byte-fill facade (modelled as stream `s` consumed
from position `pos`), and run the selection loop. -/
def selectNFrom (N : Int) (alphabets : List (List Nat)) (s : Nat → Nat) (pos : Nat) :
    Option (List Nat) :=
  if N < 0 then some []
  else selLoop alphabets (fill s pos N.toNat) (fill s (pos + N.toNat) N.toNat)

/-- The value selected at one position when all alphabets are well-sized:
`alphabets[ai mod len(alphabets)][ji mod len(that alphabet)]`. -/
def selVal (alphabets : List (List Nat)) (ai ji : Nat) : Nat :=
  let alph := alphabets.getD (ai % alphabets.length) []
  alph.getD (ji % alph.length) 0

/-- `strings.Repeat` of the Go standard library: panics for a negative
count, otherwise concatenates `count` copies. -/
def stringsRepeat (str : String) (count : Int) : Except String String :=
  if count < 0 then Except.error "strings: negative Repeat count"
  else Except.ok (String.join (List.replicate count.toNat str))

/-- The closure returned by `NewDummyGenerator` (gen.go lines 90-94):
`strings.Repeat("A", N)`. -/
def dummyGenerate (N : Int) : Except String String := stringsRepeat "A" N

/-- `NewAlphabetGenerator` construction-time validation and defensive copy
(gen.go lines 264-272): error if the alphabet has more than 255 runes,
otherwise the captured copy `alphabet_`. -/
def newAlphabetGenerator (alphabet : List Char) : Except String (List Char) :=
  if 255 < alphabet.length then
    Except.error ("Alphabet is too large! [" ++ toString alphabet.length ++ "]")
  else
    Except.ok alphabet

/-- The per-position loop body of the `NewAlphabetGenerator` closure
(gen.go lines 285-288): `index := indexes[i] % alphabetSize;
runes[i] = alphabet_[index]`, where a zero `alphabetSize` is a Go runtime
panic (`none`). -/
def alphLoop (alphabet2 : List Char) (alphabetSize : Nat) : List Nat → Option (List Char)
  | [] => some []
  | idx :: rest =>
    if alphabetSize = 0 then none
    else
      match alphLoop alphabet2 alphabetSize rest with
      | none => none
      | some cs => some (alphabet2.getD (idx % alphabetSize) 'A' :: cs)

/-- The closure returned by `NewAlphabetGenerator` (gen.go lines 274-291):
empty string for `N < 0`, otherwise `N` index bytes are drawn and each
position gets `alphabet_[indexes[i] % byte(len(alphabet_))]`. -/
def alphabetGenerate (alphabet2 : List Char) (N : Int) (s : Nat → Nat) (pos : Nat) :
    Option (List Char) :=
  if N < 0 then some []
  else alphLoop alphabet2 (byteOf alphabet2.length) (fill s pos N.toNat)

/-- Heap of allocated rune slices, for stating the defensive-copy
(frame) property: a slice value is an index into the heap. -/
abbrev Heap := List (List Char)

/-- Contents of slice `id` in heap `h`. -/
def readSlice (h : Heap) (id : Nat) : List Char := List.getD h id []

/-- Overwriting the contents of slice `id` (a caller mutating its slice). -/
def writeSlice (h : Heap) (id : Nat) (v : List Char) : Heap := List.set h id v

/-- The state captured by the closure `NewAlphabetGenerator` returns:
the requested length and the heap slice holding the defensive copy. -/
structure AlphabetGen where
  len : Int
  alphId : Nat

/-- Heap-level `NewAlphabetGenerator` (gen.go lines 264-292): validates the
size of the caller's slice `src`, then allocates a fresh slice
(`alphabet_ := make(...); copy(alphabet_, alphabet)`) holding a copy of its
contents, and closes over that fresh slice. -/
def newAlphabetGeneratorH (N : Int) (h : Heap) (src : Nat) :
    Except String (AlphabetGen × Heap) :=
  let alphabet := readSlice h src
  if 255 < alphabet.length then
    Except.error ("Alphabet is too large! [" ++ toString alphabet.length ++ "]")
  else
    Except.ok ({ len := N, alphId := List.length h }, h ++ [alphabet])

/-- Heap-level `Generate` of an alphabet generator: reads the captured
slice from the heap and runs the generation closure. -/
def generateH (g : AlphabetGen) (h : Heap) (s : Nat → Nat) (pos : Nat) :
    Option (List Char) :=
  alphabetGenerate (readSlice h g.alphId) g.len s pos

/-- The `parts[i] = g.Generate()` loop of `Join` (gen.go lines 328-336):
one `Generate()` call per generator, in order; a panicking generator
aborts the whole call. -/
def joinParts : List (Unit → Except String String) → Except String (List String)
  | [] => Except.ok []
  | g :: gs =>
    match g () with
    | Except.error e => Except.error e
    | Except.ok p =>
      match joinParts gs with
      | Except.error e => Except.error e
      | Except.ok ps => Except.ok (p :: ps)

/-- `Join` (gen.go lines 326-336): collect one `Generate()` result per
generator in argument order, then `strings.Join(parts, delim)`. -/
def Join (delim : String) (generators : List (Unit → Except String String)) :
    Except String String :=
  match joinParts generators with
  | Except.error e => Except.error e
  | Except.ok parts => Except.ok (String.intercalate delim parts)

/-- `SetDefaultStringGenerator` (gen.go lines 31-34): stores the given
(possibly nil) generator as the process-wide default. -/
def SetDefaultStringGenerator (tg : Option (Unit → Except String String)) :
    Option (Unit → Except String String) := tg

/-- The parameterless `Generate` (gen.go lines 25-27):
`defaultStringGenerator.Generate()`; calling through a nil interface is a
Go runtime panic. -/
def Generate (dflt : Option (Unit → Except String String)) : Except String String :=
  match dflt with
  | none => Except.error "runtime error: invalid memory address or nil pointer dereference"
  | some g => g ()

/-- State of the fallback pseudo-random source: the `mrand` stream and the
current read position within it. -/
structure FbState where
  stream : Nat → Nat
  pos : Nat

/-- Observable events of one `ReadBytesFallback` call: taking and releasing
the process-wide mutex, one internal skip draw (a 13-byte `rnd.Read(skipBuf)`),
and a `k`-byte `rnd.Read` into a caller-visible buffer. -/
inductive FbEv where
  | lock
  | skipDraw
  | bufDraw (k : Nat)
  | unlock
deriving DecidableEq

/-- Number of draws discarded by `skip()` (gen.go lines 403-410):
`time.Now().UnixNano() % 32`. -/
def skipCount (t1 : Nat) : Nat := t1 % 32

/-- `ReadBytesFallback` (gen.go lines 412-431) on fallback state `st`,
with `t1` the nanotime observed by `skip()` and `t2` the nanotime observed
for the masking byte: lock; discard `t1 % 32` draws of the 13-byte skip
buffer; read `n` bytes into `buf` and `n` bytes into `sbuf`; XOR each
`buf[i]` with `sbuf[i]` and with the shared byte `t2 % 256`; unlock.
Returns the output bytes, the new stream state, and the event trace. -/
def ReadBytesFallback (st : FbState) (t1 t2 : Nat) (n : Nat) :
    List Nat × FbState × List FbEv :=
  let p1 := st.pos + 13 * skipCount t1
  let buf := fill st.stream p1 n
  let sbuf := fill st.stream (p1 + n) n
  let tb := t2 % 256
  let out := List.zipWith (fun b sb => (b ^^^ sb) ^^^ tb) buf sbuf
  (out, { stream := st.stream, pos := p1 + n + n },
    FbEv.lock ::
      (List.replicate (skipCount t1) FbEv.skipDraw ++
        [FbEv.bufDraw n, FbEv.bufDraw n, FbEv.unlock]))

/-- `ReadBytes` (gen.go lines 379-386): try `crand.Read`; on any error fill
the buffer via `ReadBytesFallback` instead. `prim` is the outcome of the
primary source for this call. -/
def ReadBytes (prim : Except String (List Nat)) (st : FbState) (t1 t2 : Nat) (n : Nat) :
    List Nat × FbState :=
  match prim with
  | Except.ok bs => (bs, st)
  | Except.error _ =>
    let r := ReadBytesFallback st t1 t2 n
    (r.1, r.2.1)

/-- `ReadBytesNoFallback` (gen.go lines 388-396): return the primary bytes,
or panic with the primary source's error; no fallback state is touched. -/
def ReadBytesNoFallback (prim : Except String (List Nat)) : Except String (List Nat) :=
  match prim with
  | Except.ok bs => Except.ok bs
  | Except.error e => Except.error e

/-! Helper lemmas about the embedding. -/

theorem fill_length (s : Nat → Nat) : ∀ (n pos : Nat), (fill s pos n).length = n
  | 0, _ => rfl
  | n + 1, pos => by simp [fill, fill_length s n (pos + 1)]

theorem fill_getD (s : Nat → Nat) :
    ∀ (n pos i : Nat), i < n → (fill s pos n).getD i 0 = s (pos + i) % 256
  | _ + 1, _, 0, _ => by simp [fill]
  | n + 1, pos, i + 1, h => by
    have ih := fill_getD s n (pos + 1) i (by omega)
    have e : pos + 1 + i = pos + (i + 1) := by omega
    rw [e] at ih
    simpa [fill] using ih

theorem byteOf_eq_of_le (k : Nat) (h : k ≤ 255) : byteOf k = k :=
  Nat.mod_eq_of_lt (by omega)

theorem fallback_output_length (st : FbState) (t1 t2 n : Nat) :
    (ReadBytesFallback st t1 t2 n).1.length = n := by
  simp [ReadBytesFallback, List.length_zipWith, fill_length]

/-! Claim theorems. -/

/-- Claim C3: the non-strict `ReadBytes` never fails to the caller: on a
successful primary read it returns the primary bytes untouched, and on any
primary-source error it transparently fills the buffer via the fallback
source (with exactly the requested number of bytes); the strict
`ReadBytesNoFallback` instead propagates the primary source's error as a
panic and performs no fallback. -/
theorem claim3_ReadBytes_facade (st : FbState) (t1 t2 n : Nat) :
    (∀ bs, ReadBytes (Except.ok bs) st t1 t2 n = (bs, st)) ∧
    (∀ e, (ReadBytes (Except.error e) st t1 t2 n).1 = (ReadBytesFallback st t1 t2 n).1 ∧
      (ReadBytes (Except.error e) st t1 t2 n).1.length = n) ∧
    (∀ bs, ReadBytesNoFallback (Except.ok bs) = Except.ok bs) ∧
    (∀ e, ReadBytesNoFallback (Except.error e) = Except.error e) :=
  ⟨fun _ => rfl, fun _ => ⟨rfl, fallback_output_length st t1 t2 n⟩, fun _ => rfl, fun _ => rfl⟩

/-- Claim C5 (failing input): the dummy generator constructed with length
`-1` does not return the empty string; `strings.Repeat("A", -1)` panics
with "strings: negative Repeat count". -/
theorem claim5_dummy_negative_length_panics :
    dummyGenerate (-1) = Except.error "strings: negative Repeat count" := rfl

/-- Claim C7: `NewAlphabetGenerator` fails with the alphabet-too-large
validation error exactly when the alphabet has 256 or more symbols, and
succeeds (returning the captured alphabet and no error) whenever it has
255 or fewer. -/
theorem claim7_alphabet_size_validation (alphabet : List Char) :
    (256 ≤ alphabet.length →
      newAlphabetGenerator alphabet =
        Except.error ("Alphabet is too large! [" ++ toString alphabet.length ++ "]")) ∧
    (alphabet.length ≤ 255 → newAlphabetGenerator alphabet = Except.ok alphabet) := by
  constructor
  · intro h
    unfold newAlphabetGenerator
    rw [if_pos (by omega)]
  · intro h
    unfold newAlphabetGenerator
    rw [if_neg (by omega)]

/-- Witness for C7 at the concrete alphabets of 256 and 1 symbols. -/
theorem claim7_witness :
    newAlphabetGenerator (List.replicate 256 'a') =
      Except.error
        ("Alphabet is too large! [" ++ toString (List.replicate 256 'a').length ++ "]") ∧
    newAlphabetGenerator ['a'] = Except.ok ['a'] :=
  ⟨(claim7_alphabet_size_validation (List.replicate 256 'a')).1 (by rw [List.length_replicate]),
    (claim7_alphabet_size_validation ['a']).2 (by decide)⟩

/-- Claim C10: with no default generator set (never set, or set to nil),
the parameterless `Generate()` panics with a nil-interface dereference and
never returns a string; after setting a non-nil default `g`, it returns
exactly `g.Generate()`. -/
theorem claim10_default_generator :
    Generate (SetDefaultStringGenerator none) =
      Except.error "runtime error: invalid memory address or nil pointer dereference" ∧
    Generate none =
      Except.error "runtime error: invalid memory address or nil pointer dereference" ∧
    ∀ g, Generate (SetDefaultStringGenerator (some g)) = g () :=
  ⟨rfl, rfl, fun _ => rfl⟩

theorem alphLoop_total (alphabet2 : List Char) (size : Nat) (hs : size ≠ 0) :
    ∀ idxs : List Nat, ∃ r, alphLoop alphabet2 size idxs = some r
  | [] => ⟨[], rfl⟩
  | idx :: rest => by
    obtain ⟨r, hr⟩ := alphLoop_total alphabet2 size hs rest
    exact ⟨alphabet2.getD (idx % size) 'A' :: r, by simp [alphLoop, hs, hr]⟩

/-- Claim C6 (amended): an alphabet of more than 255 symbols is rejected by
`NewAlphabetGenerator` at construction time; and for every generator it
successfully returns whose captured alphabet is non-empty, every
`Generate()` call succeeds and returns a string, for every length and
every entropy input. (The unamended claim fails: an empty alphabet also
violates the stated precondition yet passes construction and panics at
generation time, see the counterexample.) -/
theorem claim6_construction_time_validation :
    (∀ alphabet : List Char, 255 < alphabet.length →
      newAlphabetGenerator alphabet =
        Except.error ("Alphabet is too large! [" ++ toString alphabet.length ++ "]")) ∧
    (∀ alphabet alph2 : List Char, newAlphabetGenerator alphabet = Except.ok alph2 →
      1 ≤ alph2.length → ∀ (N : Int) (s : Nat → Nat) (pos : Nat),
        ∃ r, alphabetGenerate alph2 N s pos = some r) := by
  constructor
  · intro alphabet h
    unfold newAlphabetGenerator
    rw [if_pos h]
  · intro alphabet alph2 hok hne N s pos
    unfold newAlphabetGenerator at hok
    split at hok
    · exact absurd hok (by simp)
    · rename_i hsize
      have hEq : alphabet = alph2 := by simpa using hok
      subst hEq
      unfold alphabetGenerate
      split
      · exact ⟨[], rfl⟩
      · have hb : byteOf alphabet.length = alphabet.length :=
          byteOf_eq_of_le _ (by omega)
        rw [hb]
        exact alphLoop_total alphabet _ (by omega) _

/-- Counterexample to C6 as stated: the empty alphabet violates the
alphabet-size precondition (size in [1, 255]) yet is accepted at
construction time, and the resulting generator panics (division by zero)
at generation time for length 1. -/
theorem claim6_counterexample :
    newAlphabetGenerator ([] : List Char) = Except.ok [] ∧
    alphabetGenerate [] 1 (fun k => k) 0 = none := ⟨rfl, rfl⟩

/-- Witness for C6 at a 256-symbol alphabet and at the one-symbol
alphabet with length 2. -/
theorem claim6_witness :
    newAlphabetGenerator (List.replicate 256 'b') =
      Except.error
        ("Alphabet is too large! [" ++ toString (List.replicate 256 'b').length ++ "]") ∧
    ∃ r, alphabetGenerate ['a'] 2 (fun k => k) 0 = some r :=
  ⟨claim6_construction_time_validation.1 (List.replicate 256 'b')
      (by rw [List.length_replicate]; omega),
    claim6_construction_time_validation.2 ['a'] ['a'] rfl (by decide) 2 (fun k => k) 0⟩

theorem joinParts_map_ok (vals : List String) :
    joinParts (vals.map (fun v => fun _ => Except.ok v)) = Except.ok vals := by
  induction vals with
  | nil => rfl
  | cons v vs ih => simp [joinParts, ih]

/-- Claim C9: `Join` returns the concatenation of exactly one `Generate()`
result per generator, in argument order, separated by the delimiter; in
particular for dummy generators of lengths 4 and 3, `Join("-", g1, g2)`
is exactly "AAAA-AAA". -/
theorem claim9_Join (delim : String) (vals : List String) :
    Join delim (vals.map (fun v => fun _ => Except.ok v)) =
      Except.ok (String.intercalate delim vals) ∧
    Join "-" [fun _ => dummyGenerate 4, fun _ => dummyGenerate 3] =
      Except.ok "AAAA-AAA" := by
  constructor
  · simp [Join, joinParts_map_ok]
  · rfl

theorem zip_fill_getD (s : Nat → Nat) (f : Nat → Nat → Nat) :
    ∀ (n p q i : Nat), i < n →
      (List.zipWith f (fill s p n) (fill s q n)).getD i 0 =
        f (s (p + i) % 256) (s (q + i) % 256)
  | _ + 1, _, _, 0, _ => by simp [fill]
  | n + 1, p, q, i + 1, h => by
    have ih := zip_fill_getD s f n (p + 1) (q + 1) i (by omega)
    have e1 : p + 1 + i = p + (i + 1) := by omega
    have e2 : q + 1 + i = q + (i + 1) := by omega
    rw [e1, e2] at ih
    simpa [fill] using ih

/-- Claim C2: `ReadBytesFallback` holds the process-wide lock for the whole
call (its event trace is lock first, unlock last, with neither inside);
inside it, it first discards `UnixNano mod 32` draws (a value in [0, 32))
from the pseudo-random stream, then draws `len(buf)` bytes into the buffer
and an equal-length masking sequence, and replaces each output byte by
`buf[i] XOR mask[i] XOR t` with `t` the single time-derived byte
`t2 mod 256` shared by all positions; and it never fails (it is total and
its trace contains no failure event). -/
theorem claim2_ReadBytesFallback (st : FbState) (t1 t2 n : Nat) :
    (∃ mid, (ReadBytesFallback st t1 t2 n).2.2 = FbEv.lock :: mid ++ [FbEv.unlock] ∧
      FbEv.lock ∉ mid ∧ FbEv.unlock ∉ mid) ∧
    (ReadBytesFallback st t1 t2 n).2.2 =
      FbEv.lock :: (List.replicate (t1 % 32) FbEv.skipDraw ++
        [FbEv.bufDraw n, FbEv.bufDraw n, FbEv.unlock]) ∧
    t1 % 32 < 32 ∧
    (ReadBytesFallback st t1 t2 n).1.length = n ∧
    ∀ i, i < n → (ReadBytesFallback st t1 t2 n).1.getD i 0 =
      ((st.stream (st.pos + 13 * (t1 % 32) + i) % 256) ^^^
        (st.stream (st.pos + 13 * (t1 % 32) + n + i) % 256)) ^^^ (t2 % 256) := by
  refine ⟨⟨List.replicate (t1 % 32) FbEv.skipDraw ++ [FbEv.bufDraw n, FbEv.bufDraw n],
      ?_, ?_, ?_⟩, ?_, ?_, ?_, ?_⟩
  · simp [ReadBytesFallback, skipCount]
  · simp [List.mem_append, List.mem_replicate]
  · simp [List.mem_append, List.mem_replicate]
  · simp [ReadBytesFallback, skipCount]
  · exact Nat.mod_lt _ (by omega)
  · exact fallback_output_length st t1 t2 n
  · intro i hi
    have h := zip_fill_getD st.stream (fun b sb => (b ^^^ sb) ^^^ (t2 % 256)) n
      (st.pos + 13 * (t1 % 32)) (st.pos + 13 * (t1 % 32) + n) i hi
    simpa [ReadBytesFallback, skipCount] using h

/-- Witness for C2 at a concrete stream (the identity), `t1 = 33`,
`t2 = 7`, buffer size 2, position 0: the first output byte is
`stream(13) XOR stream(15) XOR 7 = 13 XOR 15 XOR 7`. -/
theorem claim2_witness :
    (ReadBytesFallback ⟨fun k => k, 0⟩ 33 7 2).1.getD 0 0 =
      ((13 % 256) ^^^ (15 % 256)) ^^^ (7 % 256) := by
  have h := (claim2_ReadBytesFallback ⟨fun k => k, 0⟩ 33 7 2).2.2.2.2 0 (by decide)
  simpa using h

theorem getD_mem_of_lt {α : Type} (l : List α) (d : α) (k : Nat) (h : k < l.length) :
    l.getD k d ∈ l := by
  rw [List.getD_eq_getElem?_getD, List.getElem?_eq_getElem h]
  simp [List.getElem_mem h]

theorem selStep_some (alphabets : List (List Nat)) (h1 : 1 ≤ alphabets.length)
    (h2 : alphabets.length ≤ 255)
    (hA : ∀ A ∈ alphabets, 1 ≤ A.length ∧ A.length ≤ 255) (ai ji : Nat) :
    selStep alphabets ai ji = some (selVal alphabets ai ji) := by
  have hlen : byteOf alphabets.length = alphabets.length := byteOf_eq_of_le _ h2
  have hidx : ai % alphabets.length < alphabets.length := Nat.mod_lt _ (by omega)
  have hmem : alphabets.getD (ai % alphabets.length) [] ∈ alphabets :=
    getD_mem_of_lt _ _ _ hidx
  obtain ⟨hA1, hA2⟩ := hA _ hmem
  have halph : byteOf (alphabets.getD (ai % alphabets.length) []).length =
      (alphabets.getD (ai % alphabets.length) []).length := byteOf_eq_of_le _ hA2
  simp only [selStep, selVal, hlen]
  rw [if_neg (by omega : ¬ alphabets.length = 0), halph,
    if_neg (by omega : ¬ (alphabets.getD (ai % alphabets.length) []).length = 0)]

theorem selVal_mem (alphabets : List (List Nat)) (h1 : 1 ≤ alphabets.length)
    (hA : ∀ A ∈ alphabets, 1 ≤ A.length ∧ A.length ≤ 255) (ai ji : Nat) :
    ∃ A ∈ alphabets, selVal alphabets ai ji ∈ A := by
  have hidx : ai % alphabets.length < alphabets.length := Nat.mod_lt _ (by omega)
  have hmem : alphabets.getD (ai % alphabets.length) [] ∈ alphabets :=
    getD_mem_of_lt _ _ _ hidx
  obtain ⟨hA1, hA2⟩ := hA _ hmem
  refine ⟨alphabets.getD (ai % alphabets.length) [], hmem, ?_⟩
  simp only [selVal]
  exact getD_mem_of_lt _ _ _ (Nat.mod_lt _ (by omega))

theorem selLoop_spec (alphabets : List (List Nat)) (h1 : 1 ≤ alphabets.length)
    (h2 : alphabets.length ≤ 255)
    (hA : ∀ A ∈ alphabets, 1 ≤ A.length ∧ A.length ≤ 255) :
    ∀ (a j : List Nat), a.length = j.length →
      ∃ r, selLoop alphabets a j = some r ∧ r.length = a.length ∧
        ∀ i, i < a.length → r.getD i 0 = selVal alphabets (a.getD i 0) (j.getD i 0)
  | [], _, _ => ⟨[], rfl, rfl, fun i hi => absurd hi (by simp)⟩
  | ai :: as, [], hl => absurd hl (by simp)
  | ai :: as, ji :: js, hl => by
    obtain ⟨r, hr, hrl, hri⟩ := selLoop_spec alphabets h1 h2 hA as js (by simpa using hl)
    refine ⟨selVal alphabets ai ji :: r, ?_, by simpa using hrl, ?_⟩
    · simp [selLoop, selStep_some alphabets h1 h2 hA ai ji, hr]
    · intro i hi
      match i with
      | 0 => simp
      | k + 1 =>
        simpa using hri k (by simpa using hi)

/-- Claim C1: for every length N > 0 and every valid alphabet set (a
non-empty list of at most 255 non-empty alphabets, each of size at most
255), `selectNFrom` draws N bytes for alphabet choice and then N bytes for
symbol choice from the byte-fill facade (consecutive positions of the
entropy stream), and the symbol at each position i is
`alphabets[a[i] mod len(alphabets)][j[i] mod len(chosen alphabet)]`
(that is, `selVal` of the i-th choice byte and the i-th symbol byte). -/
theorem claim1_selectNFrom_algorithm (s : Nat → Nat) (pos : Nat) (N : Int)
    (alphabets : List (List Nat)) (hN : 0 < N) (h1 : 1 ≤ alphabets.length)
    (h2 : alphabets.length ≤ 255)
    (hA : ∀ A ∈ alphabets, 1 ≤ A.length ∧ A.length ≤ 255) :
    ∃ r, selectNFrom N alphabets s pos = some r ∧ r.length = N.toNat ∧
      ∀ i, i < N.toNat → r.getD i 0 =
        selVal alphabets (s (pos + i) % 256) (s (pos + N.toNat + i) % 256) := by
  obtain ⟨r, hr, hrl, hri⟩ := selLoop_spec alphabets h1 h2 hA
    (fill s pos N.toNat) (fill s (pos + N.toNat) N.toNat)
    (by rw [fill_length, fill_length])
  refine ⟨r, ?_, ?_, ?_⟩
  · rw [selectNFrom, if_neg (by omega)]
    exact hr
  · rw [hrl, fill_length]
  · intro i hi
    have hlen : i < (fill s pos N.toNat).length := by rw [fill_length]; exact hi
    rw [hri i hlen, fill_getD s N.toNat pos i hi, fill_getD s N.toNat (pos + N.toNat) i hi]

/-- Witness for C1 at stream = identity, position 0, length 2,
alphabets [[10, 11, 12], [20, 21]]. -/
theorem claim1_witness :
    ∃ r, selectNFrom 2 [[10, 11, 12], [20, 21]] (fun k => k) 0 = some r ∧
      r.length = (2 : Int).toNat ∧
      ∀ i, i < (2 : Int).toNat → r.getD i 0 =
        selVal [[10, 11, 12], [20, 21]] ((fun k : Nat => k) (0 + i) % 256)
          ((fun k : Nat => k) (0 + (2 : Int).toNat + i) % 256) :=
  claim1_selectNFrom_algorithm (fun k => k) 0 2 [[10, 11, 12], [20, 21]]
    (by decide) (by decide) (by decide) (by decide)

/-- Claim C4: for every length N ≥ 0 and every valid alphabet set (1 to
255 alphabets, each of size in [1, 255]), `selectNFrom` succeeds, returns
exactly `N` symbols, and every returned symbol belongs to some alphabet of
the set. -/
theorem claim4_selectNFrom_domain (s : Nat → Nat) (pos : Nat) (N : Int)
    (alphabets : List (List Nat)) (hN : 0 ≤ N) (h1 : 1 ≤ alphabets.length)
    (h2 : alphabets.length ≤ 255)
    (hA : ∀ A ∈ alphabets, 1 ≤ A.length ∧ A.length ≤ 255) :
    ∃ r, selectNFrom N alphabets s pos = some r ∧ r.length = N.toNat ∧
      ∀ x ∈ r, ∃ A ∈ alphabets, x ∈ A := by
  obtain ⟨r, hr, hrl, hri⟩ := selLoop_spec alphabets h1 h2 hA
    (fill s pos N.toNat) (fill s (pos + N.toNat) N.toNat)
    (by rw [fill_length, fill_length])
  refine ⟨r, ?_, ?_, ?_⟩
  · rw [selectNFrom, if_neg (by omega)]
    exact hr
  · rw [hrl, fill_length]
  · intro x hx
    obtain ⟨i, hil, hig⟩ := List.mem_iff_getElem.mp hx
    have hi2 : i < (fill s pos N.toNat).length := by rw [← hrl]; exact hil
    have hgd : r.getD i 0 = x := by
      rw [List.getD_eq_getElem?_getD, List.getElem?_eq_getElem hil]
      simpa using hig
    rw [← hgd, hri i hi2]
    exact selVal_mem alphabets h1 hA _ _

/-- Witness for C4 at stream = identity, position 5, length 3,
alphabets [[10, 11, 12], [20, 21]]. -/
theorem claim4_witness :
    ∃ r, selectNFrom 3 [[10, 11, 12], [20, 21]] (fun k => k) 5 = some r ∧
      r.length = (3 : Int).toNat ∧ ∀ x ∈ r, ∃ A ∈ [[10, 11, 12], [20, 21]], x ∈ A :=
  claim4_selectNFrom_domain (fun k => k) 5 3 [[10, 11, 12], [20, 21]]
    (by decide) (by decide) (by decide) (by decide)

/-- Claim C8: when `NewAlphabetGenerator` succeeds on the caller's slice
`src`, mutating that slice afterwards (overwriting it with any contents
`v`) does not change the behavior of the returned generator: `Generate()`
on the mutated heap equals `Generate()` on the unmutated heap, and both
equal generation over the contents the slice had at construction time
(the generator closes over a defensive copy). -/
theorem claim8_defensive_copy (h : Heap) (src : Nat) (N : Int) (g : AlphabetGen)
    (h2 : Heap) (hsrc : src < h.length)
    (hok : newAlphabetGeneratorH N h src = Except.ok (g, h2)) :
    ∀ (v : List Char) (s : Nat → Nat) (pos : Nat),
      generateH g (writeSlice h2 src v) s pos = generateH g h2 s pos ∧
      generateH g h2 s pos = alphabetGenerate (readSlice h src) N s pos := by
  simp only [newAlphabetGeneratorH] at hok
  split at hok
  · exact absurd hok (by simp)
  · have hpair : g = { len := N, alphId := List.length h } ∧ h2 = h ++ [readSlice h src] := by
      constructor <;> · injection hok with hok2; injection hok2 with hg hh; simp [hg, hh]
    obtain ⟨hg, hh⟩ := hpair
    subst hg
    subst hh
    intro v s pos
    have hfresh : readSlice (h ++ [readSlice h src]) (List.length h) = readSlice h src := by
      unfold readSlice
      rw [List.getD_eq_getElem?_getD, List.getElem?_append_right (Nat.le_refl _)]
      simp
    constructor
    · unfold generateH writeSlice readSlice
      simp only [List.getD_eq_getElem?_getD]
      rw [List.getElem?_set_ne (by omega : src ≠ List.length h)]
    · unfold generateH
      rw [hfresh]

/-- Witness for C8 at the concrete heap `[['x']]`, source slice 0,
length 1, with the original slice overwritten by `['y']` afterwards. -/
theorem claim8_witness :
    generateH { len := 1, alphId := 1 } (writeSlice [['x'], ['x']] 0 ['y'])
        (fun k => k) 0 =
      generateH { len := 1, alphId := 1 } [['x'], ['x']] (fun k => k) 0 ∧
    generateH { len := 1, alphId := 1 } [['x'], ['x']] (fun k => k) 0 =
      alphabetGenerate (readSlice [['x']] 0) 1 (fun k => k) 0 :=
  claim8_defensive_copy [['x']] 0 1 { len := 1, alphId := 1 } [['x'], ['x']]
    (by decide) rfl ['y'] (fun k => k) 0

end Libtoken
